import Mathlib

/-!
Shallow embedding of the distributed appointment-scheduling service
(internal/appointment/model.go, pg_repository.go, service.go,
internal/redis/lock.go, internal/db/migrations/0002_slots_appointments.sql).

Identifiers (uuid.UUID values) are modelled as natural numbers, instants
(time.Time) as integers on a single timeline.  Postgres tables are lists of
rows; each repository method of PgRepository becomes a pure function on the
database state that returns the same result/error split as the Go code.
Database constraints from the migrations (primary key, foreign keys,
chk_expires_future, and the partial unique index
uniq_confirmed_appointment_per_slot) are checked by the write primitives,
because Postgres enforces them on every INSERT/UPDATE.

Go errors are modelled by their identity under errors.Is: fmt.Errorf("...: %w")
wrapping preserves errors.Is, and every caller in the repository branches with
errors.Is, so an error value is represented by its kind alone.
-/

namespace ApptSched

/-- uuid.UUID, abstracted to a countable identifier type. -/
abbrev Id := Nat

/-- time.Time, abstracted to an integer timeline (Before is <). -/
abbrev Time := Int

/-- appointment.AppointmentStatus (model.go): pending/confirmed/cancelled/expired. -/
inductive AppointmentStatus where
  | pending
  | confirmed
  | cancelled
  | expired
deriving DecidableEq, Repr

/-- appointment.SlotStatus (model.go): open/blocked/deleted. -/
inductive SlotStatus where
  | slotOpen
  | slotBlocked
  | slotDeleted
deriving DecidableEq, Repr

/-- appointment.Patient (model.go). -/
structure Patient where
  id : Id
  name : String
  email : Option String
  createdAt : Time
  updatedAt : Time
deriving DecidableEq, Repr

/-- appointment.Clinician (model.go). -/
structure Clinician where
  id : Id
  name : String
  specialty : Option String
  createdAt : Time
  updatedAt : Time
deriving DecidableEq, Repr

/-- appointment.AppointmentSlot (model.go). -/
structure AppointmentSlot where
  id : Id
  practitionerID : Id
  startTime : Time
  endTime : Time
  status : SlotStatus
  capacity : Int
  createdAt : Time
  updatedAt : Time
deriving DecidableEq, Repr

/-- appointment.Appointment (model.go). -/
structure Appointment where
  id : Id
  slotID : Id
  patientID : Id
  status : AppointmentStatus
  createdAt : Time
  updatedAt : Time
  expiresAt : Option Time
deriving DecidableEq, Repr

/-- A value of the map[string]any event payloads built in service.go:
uuid strings, timestamps, and plain strings. -/
inductive PayloadValue where
  | uuid (i : Id)
  | time (t : Time)
  | str (s : String)
deriving DecidableEq, Repr

/-- The JSON object payload of an event, kept structured
(json.Marshal of these maps never fails). -/
abbrev Payload := List (String × PayloadValue)

/-- appointment.EventLog (model.go); id is the bigserial assigned by
event_logs (migration 0003). -/
structure EventLog where
  id : Int
  eventType : String
  appointmentID : Option Id
  payload : Payload
  createdAt : Time
deriving DecidableEq, Repr

/-- appointment.AppointmentDetail (model.go): hydrated read result. -/
structure AppointmentDetail where
  appointment : Appointment
  slot : AppointmentSlot
  patient : Patient
  clinician : Clinician
deriving DecidableEq, Repr

/-- The error kinds visible through errors.Is in this codebase:
the sentinel errors of internal/appointment and internal/redis, plus the
database constraint-violation errors surfaced by pgx.  Wrapping with
fmt.Errorf("...: %w") preserves errors.Is, so a kind fully represents an
error value. -/
inductive Err where
  | patientNotFound
  | clinicianNotFound
  | slotNotFound
  | appointmentNotFound
  | slotAlreadyBooked
  | slotBeingBooked
  | appointmentExpired
  | invalidStatusTransition
  | slotNotOpen
  | lockNotAcquired
  | uniqueViolation (constraint : String)
  | checkViolation (constraint : String)
  | fkViolation (constraint : String)
  | integrityViolation
deriving DecidableEq, Repr

/-- The database state: one list of rows per table of migrations 0001-0003,
plus the next bigserial value for event_logs. -/
structure DB where
  patients : List Patient
  clinicians : List Clinician
  slots : List AppointmentSlot
  appointments : List Appointment
  events : List EventLog
  nextEventId : Int
deriving DecidableEq, Repr

deriving instance DecidableEq for Except

/-! ## Repository (internal/appointment/pg_repository.go) -/

/-- PgRepository.GetPatientByID: SELECT ... FROM patients WHERE id = $1. -/
def getPatientByID (db : DB) (i : Id) : Except Err Patient :=
  match db.patients.find? (fun p => p.id == i) with
  | some p => .ok p
  | none => .error .patientNotFound

/-- PgRepository.GetClinicianByID: SELECT ... FROM clinicians WHERE id = $1. -/
def getClinicianByID (db : DB) (i : Id) : Except Err Clinician :=
  match db.clinicians.find? (fun c => c.id == i) with
  | some c => .ok c
  | none => .error .clinicianNotFound

/-- PgRepository.GetSlotByID: SELECT ... FROM appointment_slots WHERE id = $1. -/
def getSlotByID (db : DB) (i : Id) : Except Err AppointmentSlot :=
  match db.slots.find? (fun s => s.id == i) with
  | some s => .ok s
  | none => .error .slotNotFound

/-- PgRepository.GetAppointmentByID: SELECT ... FROM appointments WHERE id = $1. -/
def getAppointmentByID (db : DB) (i : Id) : Except Err Appointment :=
  match db.appointments.find? (fun a => a.id == i) with
  | some a => .ok a
  | none => .error .appointmentNotFound

/-- PgRepository.GetConfirmedAppointmentForSlot:
SELECT ... WHERE slot_id = $1 AND status = 'confirmed' (QueryRow takes the
first matching row; ErrNoRows becomes ErrAppointmentNotFound). -/
def getConfirmedAppointmentForSlot (db : DB) (slotID : Id) : Except Err Appointment :=
  match db.appointments.find?
      (fun a => a.slotID == slotID && a.status == .confirmed) with
  | some a => .ok a
  | none => .error .appointmentNotFound

/-- PgRepository.CreatePendingAppointment: INSERT with status literal
'pending', created_at = updated_at = now().  The insert is subject to the
table constraints of migration 0002: the appointments primary key, the
slot/patient foreign keys, and chk_expires_future
(expires_at IS NULL OR expires_at > created_at).  The partial unique index
uniq_confirmed_appointment_per_slot only covers rows with
status = 'confirmed', so it never rejects this pending insert.
dbNow is the Postgres now() of the statement.  On a constraint violation the
statement fails and the state is unchanged. -/
def createPendingAppointment (db : DB) (newId slotID patientID : Id)
    (expiresAt : Time) (dbNow : Time) : Except Err Appointment × DB :=
  if db.appointments.any (fun a => a.id == newId) then
    (.error (.uniqueViolation "appointments_pkey"), db)
  else if !db.slots.any (fun s => s.id == slotID) then
    (.error (.fkViolation "appointments_slot_id_fkey"), db)
  else if !db.patients.any (fun p => p.id == patientID) then
    (.error (.fkViolation "appointments_patient_id_fkey"), db)
  else if !(decide (expiresAt > dbNow)) then
    (.error (.checkViolation "chk_expires_future"), db)
  else
    let a : Appointment :=
      { id := newId, slotID := slotID, patientID := patientID,
        status := .pending, createdAt := dbNow, updatedAt := dbNow,
        expiresAt := some expiresAt }
    (.ok a, { db with appointments := db.appointments ++ [a] })

/-- PgRepository.UpdateAppointmentStatus:
UPDATE appointments SET status = to, updated_at = now()
WHERE id = $1 AND status = from RETURNING ...; QueryRow's ErrNoRows (no row
matched) becomes ErrAppointmentNotFound.  When the update sets
status = 'confirmed', Postgres checks the partial unique index
uniq_confirmed_appointment_per_slot (migration 0002): if another row for the
same slot is already confirmed the statement fails with a unique violation
and the state is unchanged. -/
def updateAppointmentStatus (db : DB) (i : Id)
    (fromStatus toStatus : AppointmentStatus) (dbNow : Time) :
    Except Err Appointment × DB :=
  match db.appointments.find? (fun a => a.id == i && a.status == fromStatus) with
  | none => (.error .appointmentNotFound, db)
  | some a =>
    let a' : Appointment := { a with status := toStatus, updatedAt := dbNow }
    if toStatus == .confirmed &&
        db.appointments.any
          (fun b => !(b.id == i) && b.slotID == a.slotID && b.status == .confirmed) then
      (.error (.uniqueViolation "uniq_confirmed_appointment_per_slot"), db)
    else
      (.ok a',
       { db with appointments :=
          db.appointments.map (fun b => if b.id == i then a' else b) })

/-- PgRepository.FindExpiredPending:
SELECT ... WHERE status = 'pending' AND expires_at IS NOT NULL
AND expires_at < $1. -/
def findExpiredPending (db : DB) (now : Time) : List Appointment :=
  db.appointments.filter
    (fun a => a.status == .pending && a.expiresAt.any (fun e => decide (e < now)))

/-- PgRepository.InsertEvent: INSERT INTO event_logs; id is assigned by the
bigserial sequence.  (ev.CreatedAt is always set by Service.logEvent, so the
COALESCE($4, now()) branch resolves to the given timestamp.) -/
def insertEvent (db : DB) (eventType : String) (appointmentID : Option Id)
    (payload : Payload) (createdAt : Time) : DB :=
  { db with
    events := db.events ++
      [{ id := db.nextEventId, eventType := eventType,
         appointmentID := appointmentID, payload := payload,
         createdAt := createdAt }],
    nextEventId := db.nextEventId + 1 }

/-! ## Distributed slot lock (internal/redis/lock.go)

The Redis keyspace relevant to the locker is the set of keys
lock:slot:<slotId>; since uuid.String() is injective the key is modelled by
the slot id itself, and the uuid.NewString() holder token by a number.
A context is modelled by its deadline (none = no deadline). -/

/-- The lock-store state: the live lock:slot:<slotId> keys with their
holder-token values. -/
abbrev LockStore := List (Id × Nat)

/-- Redis GET on a lock key. -/
def lockGet (ls : LockStore) (key : Id) : Option Nat :=
  (ls.find? (fun kv => kv.1 == key)).map (fun kv => kv.2)

/-- Redis SETNX key token EX ttl: succeeds exactly when the key is absent. -/
def setNX (ls : LockStore) (key : Id) (token : Nat) : Bool × LockStore :=
  if (lockGet ls key).isSome then (false, ls) else (true, (key, token) :: ls)

/-- unlockScript (lock.go): GET the key; DEL it only when the stored value
equals the ARGV token, else leave the store unchanged and return 0. -/
def unlockScriptRun (ls : LockStore) (key : Id) (token : Nat) : Int × LockStore :=
  match lockGet ls key with
  | some v =>
    if v == token then (1, ls.filter (fun kv => !(kv.1 == key))) else (0, ls)
  | none => (0, ls)

/-- redisSlotLocker.release: runs unlockScript and swallows redis.Nil. -/
def lockRelease (ls : LockStore) (key : Id) (token : Nat) : LockStore :=
  (unlockScriptRun ls key token).2

/-- context.WithTimeout(parent, ttl) taken at instant now: the child context's
deadline is now + ttl, except that an earlier parent deadline is kept. -/
def ctxWithTimeout (parent : Option Time) (now ttl : Time) : Option Time :=
  match parent with
  | none => some (now + ttl)
  | some d => some (min d (now + ttl))

/-- redisSlotLocker.WithSlotLock: non-blocking SETNX acquire with a fresh
token; on failure return ErrLockNotAcquired without running fn; on success
run fn under ctxWithTimeout(ctx, ttl) and release on every exit path (the
deferred conditional compare-and-delete).  fn's effect is on a state sigma
threaded through; interfere is the adversary's effect on the lock store while
fn runs (TTL expiry of the key, another process acquiring it), applied before
the deferred release, so the takeover cases are expressible. -/
def withSlotLock {σ α : Type} (ls : LockStore) (slotID : Id) (token : Nat)
    (lockTTL : Time) (now : Time) (ctxDeadline : Option Time)
    (interfere : LockStore → LockStore)
    (body : Option Time → σ → Except Err α × σ) (st : σ) :
    Except Err α × σ × LockStore :=
  match setNX ls slotID token with
  | (false, ls1) => (.error .lockNotAcquired, st, ls1)
  | (true, ls1) =>
    let r := body (ctxWithTimeout ctxDeadline now lockTTL) st
    let ls2 := interfere ls1
    (r.1, r.2, lockRelease ls2 slotID token)

/-! ## Service (internal/appointment/service.go)

Each service method is a pure function of the database state.  The go
time.Now() reads become the parameter now, the Postgres now() of the write
statements becomes dbNow, and the uuids minted during the call
(uuid.New() in CreatePendingAppointment, uuid.NewString() in WithSlotLock)
become explicit parameters.  Methods that can interleave with other actors
between two of their own store accesses take a parameter mid : DB -> DB, the
combined effect of those concurrent writes; a solo sequential run is mid = id. -/

/-- Event type constants (service.go). -/
def EventAppointmentCreated : String := "APPOINTMENT_CREATED"

/-- Event type constant APPOINTMENT_CONFIRMED (service.go). -/
def EventAppointmentConfirmed : String := "APPOINTMENT_CONFIRMED"

/-- Event type constant APPOINTMENT_EXPIRED (service.go). -/
def EventAppointmentExpired : String := "APPOINTMENT_EXPIRED"

/-- Service.logEvent: marshal the payload (never fails for the maps this
service builds), build the EventLog with CreatedAt = time.Now(), insert it,
and swallow any insert error. -/
def logEvent (db : DB) (appointmentID : Id) (eventType : String)
    (payload : Payload) (now : Time) : DB :=
  insertEvent db eventType (some appointmentID) payload now

/-- Service.CreateAppointment: validate patient, slot and slot status before
the lock; inside WithSlotLock re-check for a confirmed appointment, insert
the pending row with expires_at = time.Now() + cfg.AppointmentTTL, and log
APPOINTMENT_CREATED; afterwards map ErrLockNotAcquired to ErrSlotBeingBooked.
newApptId is the uuid.New() of CreatePendingAppointment and token the
uuid.NewString() of WithSlotLock. -/
def createAppointment (db : DB) (ls : LockStore) (slotID patientID : Id)
    (appointmentTTL lockTTL : Time) (now dbNow : Time) (newApptId : Id)
    (token : Nat) (ctxDeadline : Option Time) :
    Except Err Appointment × DB × LockStore :=
  match getPatientByID db patientID with
  | .error e => (.error e, db, ls)
  | .ok _ =>
    match getSlotByID db slotID with
    | .error e => (.error e, db, ls)
    | .ok slot =>
      if slot.status != SlotStatus.slotOpen then (.error .slotNotOpen, db, ls)
      else
        let r :=
          withSlotLock ls slotID token lockTTL now ctxDeadline (fun l => l)
            (fun _lockCtx db1 =>
              match getConfirmedAppointmentForSlot db1 slotID with
              | .ok _existing => (.error .slotAlreadyBooked, db1)
              | .error e =>
                if e != Err.appointmentNotFound then (.error e, db1)
                else
                  let expiresAt := now + appointmentTTL
                  match createPendingAppointment db1 newApptId slotID patientID
                      expiresAt dbNow with
                  | (.error e2, db2) => (.error e2, db2)
                  | (.ok appt, db2) =>
                    let db3 := logEvent db2 appt.id EventAppointmentCreated
                      [("slot_id", .uuid slotID), ("patient_id", .uuid patientID),
                       ("expires_at", .time expiresAt)] now
                    (.ok appt, db3))
            db
        match r with
        | (.error e, db', ls') =>
          if e == Err.lockNotAcquired then (.error .slotBeingBooked, db', ls')
          else (.error e, db', ls')
        | (.ok a, db', ls') => (.ok a, db', ls')

/-- Service.ConfirmAppointment: load the appointment; reject Expired; on a
past expires_at do a best-effort Pending -> Expired update (NotFound and
other errors are only logged), log APPOINTMENT_EXPIRED{confirm_after_expiry}
and return ErrAppointmentExpiredState; reject non-Pending; otherwise do the
conditional Pending -> Confirmed update (any error is wrapped and returned)
and log APPOINTMENT_CONFIRMED.  mid is the effect of writes by concurrent
actors between this call's load and its subsequent store accesses. -/
def confirmAppointment (db : DB) (i : Id) (now dbNow : Time)
    (mid : DB → DB) : Except Err Appointment × DB :=
  match getAppointmentByID db i with
  | .error e => (.error e, db)
  | .ok appt =>
    let db1 := mid db
    if appt.status == AppointmentStatus.expired then
      (.error .appointmentExpired, db1)
    else if appt.expiresAt.any (fun e => decide (e < now)) then
      let upd := updateAppointmentStatus db1 appt.id .pending .expired dbNow
      let db3 := logEvent upd.2 appt.id EventAppointmentExpired
        [("reason", .str "confirm_after_expiry")] now
      (.error .appointmentExpired, db3)
    else if appt.status != AppointmentStatus.pending then
      (.error .invalidStatusTransition, db1)
    else
      match updateAppointmentStatus db1 appt.id .pending .confirmed dbNow with
      | (.error e, db2) => (.error e, db2)
      | (.ok updated, db2) =>
        let db3 := logEvent db2 updated.id EventAppointmentConfirmed [] now
        (.ok updated, db3)

/-- The loop body of Service.ExpirePendingAppointments for one candidate:
attempt the conditional Pending -> Expired update; when it fails with
anything other than ErrAppointmentNotFound, log and skip the candidate;
otherwise (success, or NotFound meaning someone else handled the row)
log APPOINTMENT_EXPIRED{reason: "worker"}. -/
def expireStep (now dbNow : Time) (acc : DB) (appt : Appointment) : DB :=
  let upd := updateAppointmentStatus acc appt.id .pending .expired dbNow
  match upd.1 with
  | .error e =>
    if e != Err.appointmentNotFound then upd.2
    else logEvent upd.2 appt.id EventAppointmentExpired
      [("reason", .str "worker")] now
  | .ok _ => logEvent upd.2 appt.id EventAppointmentExpired
      [("reason", .str "worker")] now

/-- Service.ExpirePendingAppointments: scan FindExpiredPending(time.Now())
(a pure read that only fails on infrastructure errors, outside this model),
then run expireStep over every candidate; the method returns nil (Unit) at
the end — it carries no count.  mid is the effect of concurrent writes
between the scan and the update loop. -/
def expirePendingAppointments (db : DB) (now dbNow : Time) (mid : DB → DB) :
    Except Err Unit × DB :=
  let expiredCandidates := findExpiredPending db now
  let db1 := mid db
  (.ok (), expiredCandidates.foldl (expireStep now dbNow) db1)

/-- Service.GetAppointment delegates to the repository hydrated read. -/
def scanAppointmentDetail (a : Appointment) (slot : AppointmentSlot)
    (patient : Patient) (clinician : Clinician) : Except Err AppointmentDetail :=
  if a.slotID != slot.id || a.patientID != patient.id ||
      slot.practitionerID != clinician.id then
    .error .integrityViolation
  else
    .ok { appointment := a, slot := slot, patient := patient,
          clinician := clinician }

/-- PgRepository.GetAppointmentDetail: the single-query INNER JOIN of
appointments with appointment_slots, patients and clinicians on
a.slot_id = s.id, a.patient_id = p.id, s.practitioner_id = c.id; a missing
join partner drops the row (QueryRow then yields ErrNoRows, reported as
ErrAppointmentNotFound); the scanned row goes through the integrity check of
scanAppointmentDetail. -/
def getAppointmentDetail (db : DB) (i : Id) : Except Err AppointmentDetail :=
  match db.appointments.find? (fun a => a.id == i) with
  | none => .error .appointmentNotFound
  | some a =>
    match db.slots.find? (fun s => s.id == a.slotID) with
    | none => .error .appointmentNotFound
    | some s =>
      match db.patients.find? (fun p => p.id == a.patientID) with
      | none => .error .appointmentNotFound
      | some p =>
        match db.clinicians.find? (fun c => c.id == s.practitionerID) with
        | none => .error .appointmentNotFound
        | some c => scanAppointmentDetail a s p c

/-- The join rows of the ListAppointmentsByPatient query before paging:
appointments of the patient that have all three join partners, retaining for
each the joined entities in query order (created_at DESC; ties in
unspecified order, modelled by a stable insertion sort on created_at). -/
def joinRowsByPatient (db : DB) (patientID : Id) :
    List (Appointment × AppointmentSlot × Patient × Clinician) :=
  (db.appointments.filter (fun a => a.patientID == patientID)).filterMap
    (fun a =>
      (db.slots.find? (fun s => s.id == a.slotID)).bind (fun s =>
        (db.patients.find? (fun p => p.id == a.patientID)).bind (fun p =>
          (db.clinicians.find? (fun c => c.id == s.practitionerID)).map (fun c =>
            (a, s, p, c)))))

/-- Ordered insert for ORDER BY a.created_at DESC. -/
def insertByCreatedAtDesc
    (x : Appointment × AppointmentSlot × Patient × Clinician) :
    List (Appointment × AppointmentSlot × Patient × Clinician) →
    List (Appointment × AppointmentSlot × Patient × Clinician)
  | [] => [x]
  | y :: ys =>
    if decide (y.1.createdAt ≥ x.1.createdAt) then
      y :: insertByCreatedAtDesc x ys
    else x :: y :: ys

/-- ORDER BY a.created_at DESC, as a sort on the join rows. -/
def sortByCreatedAtDesc
    (rows : List (Appointment × AppointmentSlot × Patient × Clinician)) :
    List (Appointment × AppointmentSlot × Patient × Clinician) :=
  rows.foldr insertByCreatedAtDesc []

/-- The rows loop of ListAppointmentsByPatient: scan each joined row through
scanAppointmentDetail, failing the whole call on the first scan error. -/
def scanDetailRows :
    List (Appointment × AppointmentSlot × Patient × Clinician) →
    Except Err (List AppointmentDetail)
  | [] => .ok []
  | (a, s, p, c) :: rest =>
    match scanAppointmentDetail a s p c with
    | .error e => .error e
    | .ok d =>
      match scanDetailRows rest with
      | .error e => .error e
      | .ok ds => .ok (d :: ds)

/-- PgRepository.ListAppointmentsByPatient: the hydrated join filtered on
a.patient_id, ORDER BY a.created_at DESC, LIMIT $2 OFFSET $3 (both
non-negative by the time the repository is called). -/
def repoListAppointmentsByPatient (db : DB) (patientID : Id)
    (limit offset : Int) : Except Err (List AppointmentDetail) :=
  let rows := sortByCreatedAtDesc (joinRowsByPatient db patientID)
  scanDetailRows ((rows.drop offset.toNat).take limit.toNat)

/-- Service.ListAppointmentsByPatient: normalise the paging inputs
(limit <= 0 becomes the default 20, then limit > 100 is clamped to 100,
negative offset becomes 0) and call the repository. -/
def listAppointmentsByPatient (db : DB) (patientID : Id)
    (limit offset : Int) : Except Err (List AppointmentDetail) :=
  let limit1 := if limit ≤ 0 then 20 else limit
  let limit2 := if limit1 > 100 then 100 else limit1
  let offset1 := if offset < 0 then 0 else offset
  repoListAppointmentsByPatient db patientID limit2 offset1

/-! ## The write steps of the engine

service.go issues exactly these write statements against the store:
CreatePendingAppointment (CreateAppointment, line 79), the conditional
UpdateAppointmentStatus with the literal argument pairs
(StatusPending, StatusExpired) (ConfirmAppointment line 124,
ExpirePendingAppointments line 157) and (StatusPending, StatusConfirmed)
(ConfirmAppointment line 138), and InsertEvent (logEvent).  Each statement is
atomic in Postgres, so every concurrent execution of any number of service
calls — across all instances — is an interleaving of these steps. -/
inductive Step : DB → DB → Prop where
  | createPending (db : DB) (newId slotID patientID : Id) (expiresAt dbNow : Time) :
      Step db (createPendingAppointment db newId slotID patientID expiresAt dbNow).2
  | confirmUpdate (db : DB) (i : Id) (dbNow : Time) :
      Step db (updateAppointmentStatus db i .pending .confirmed dbNow).2
  | expireUpdate (db : DB) (i : Id) (dbNow : Time) :
      Step db (updateAppointmentStatus db i .pending .expired dbNow).2
  | appendEvent (db : DB) (t : String) (aid : Option Id) (pl : Payload) (c : Time) :
      Step db (insertEvent db t aid pl c)

/-- States reachable from db₀ through the engine's write statements. -/
def Reachable (db₀ db : DB) : Prop := Relation.ReflTransGen Step db₀ db

/-- Well-formedness maintained by the appointments primary key:
row ids are pairwise distinct. -/
def WF (db : DB) : Prop := (db.appointments.map (fun a => a.id)).Nodup

/-- The number of confirmed appointments a state holds for a slot. -/
def confirmedCount (db : DB) (s : Id) : Nat :=
  db.appointments.countP (fun a => a.slotID == s && a.status == .confirmed)

/-- Invariant 1 of the spec: at most one confirmed appointment per slot. -/
def AtMostOneConfirmedPerSlot (db : DB) : Prop :=
  ∀ s : Id, confirmedCount db s ≤ 1

/-- Members of a list with nodup ids are determined by their id. -/
theorem mem_id_inj {l : List Appointment}
    (h : (l.map (fun a => a.id)).Nodup) {a b : Appointment}
    (ha : a ∈ l) (hb : b ∈ l) (hab : a.id = b.id) : a = b :=
  List.inj_on_of_nodup_map h ha hb hab

/-- A member of a nodup-ids list splits the list into parts that avoid its id. -/
theorem decomp_of_mem_nodup {l : List Appointment} {a : Appointment}
    (hmem : a ∈ l) (hnd : (l.map (fun b => b.id)).Nodup) :
    ∃ l₁ l₂, l = l₁ ++ a :: l₂ ∧
      (∀ b ∈ l₁, b.id ≠ a.id) ∧ (∀ b ∈ l₂, b.id ≠ a.id) := by
  obtain ⟨l₁, l₂, rfl⟩ := List.append_of_mem hmem
  rw [List.map_append, List.map_cons] at hnd
  obtain ⟨h₁, h₂, hdis⟩ := List.nodup_append.mp hnd
  obtain ⟨hnotin, _⟩ := List.nodup_cons.mp h₂
  refine ⟨l₁, l₂, rfl, ?_, ?_⟩
  · intro b hb hbid
    exact hdis (List.mem_map_of_mem _ hb) (by simp [hbid])
  · intro b hb hbid
    exact hnotin (hbid ▸ List.mem_map_of_mem _ hb)


/-- What createPendingAppointment does to the appointments table: nothing on
a constraint violation, otherwise it appends one pending row with a fresh id
and the caller-stamped expiry. -/
theorem createPending_appointments (db : DB) (newId slotID patientID : Id)
    (expiresAt dbNow : Time) :
    (createPendingAppointment db newId slotID patientID expiresAt dbNow).2 = db ∨
    ∃ row : Appointment,
      (∀ b ∈ db.appointments, b.id ≠ newId) ∧
      row.id = newId ∧ row.slotID = slotID ∧ row.patientID = patientID ∧
      row.status = .pending ∧ row.createdAt = dbNow ∧
      row.expiresAt = some expiresAt ∧
      (createPendingAppointment db newId slotID patientID expiresAt dbNow).2.appointments =
        db.appointments ++ [row] := by
  unfold createPendingAppointment
  by_cases hpk : db.appointments.any (fun a => a.id == newId)
  · left; simp [hpk]
  · by_cases hfs : db.slots.any (fun s => s.id == slotID)
    · by_cases hfp : db.patients.any (fun p => p.id == patientID)
      · by_cases hchk : decide (expiresAt > dbNow)
        · right
          refine ⟨{ id := newId, slotID := slotID, patientID := patientID,
                    status := .pending, createdAt := dbNow, updatedAt := dbNow,
                    expiresAt := some expiresAt },
            ?_, rfl, rfl, rfl, rfl, rfl, rfl, by simp [hpk, hfs, hfp, hchk]⟩
          intro b hb hbid
          exact hpk (List.any_eq_true.mpr ⟨b, hb, by simp [hbid]⟩)
        · left; simp [hpk, hfs, hfp, hchk]
      · left; simp [hpk, hfs, hfp]
    · left; simp [hpk, hfs]

/-- Replacing the row with a given id leaves a list without that id alone. -/
theorem map_update_of_not_mem (l : List Appointment) (i : Id) (a' : Appointment)
    (h : ∀ b ∈ l, b.id ≠ i) :
    l.map (fun b => if b.id == i then a' else b) = l := by
  induction l with
  | nil => rfl
  | cons x xs ih =>
    simp only [List.map_cons]
    rw [if_neg (by simp [h x (List.mem_cons_self x xs)]),
      ih (fun b hb => h b (List.mem_cons_of_mem x hb))]

/-- What updateAppointmentStatus does to the appointments table in a
well-formed state: nothing when no row matches or the partial unique index
rejects the write, otherwise it rewrites the unique matching row in place,
changing only status and updated_at. -/
theorem updateStatus_appointments (db : DB) (i : Id)
    (fromStatus toStatus : AppointmentStatus) (dbNow : Time) (hwf : WF db) :
    (updateAppointmentStatus db i fromStatus toStatus dbNow).2 = db ∨
    ∃ a a' : Appointment, ∃ l₁ l₂,
      db.appointments = l₁ ++ a :: l₂ ∧ a.id = i ∧ a.status = fromStatus ∧
      (∀ b ∈ l₁, b.id ≠ i) ∧ (∀ b ∈ l₂, b.id ≠ i) ∧
      a'.id = a.id ∧ a'.slotID = a.slotID ∧ a'.patientID = a.patientID ∧
      a'.status = toStatus ∧ a'.createdAt = a.createdAt ∧
      a'.expiresAt = a.expiresAt ∧
      (updateAppointmentStatus db i fromStatus toStatus dbNow).2.appointments =
        l₁ ++ a' :: l₂ ∧
      (toStatus = .confirmed →
        ∀ b ∈ db.appointments, b.id ≠ i →
          ¬(b.slotID = a.slotID ∧ b.status = .confirmed)) := by
  cases hfind : db.appointments.find? (fun a => a.id == i && a.status == fromStatus) with
  | none =>
    left
    simp [updateAppointmentStatus, hfind]
  | some a =>
    have hpred := List.find?_some hfind
    simp only [Bool.and_eq_true, beq_iff_eq] at hpred
    obtain ⟨haid, hast⟩ := hpred
    have hmem := List.mem_of_find?_eq_some hfind
    by_cases hidx : (toStatus == AppointmentStatus.confirmed &&
        db.appointments.any
          (fun b => !(b.id == i) && b.slotID == a.slotID && b.status == .confirmed)) = true
    · left
      simp [updateAppointmentStatus, hfind, hidx]
    · right
      obtain ⟨l₁, l₂, hdec, hl₁, hl₂⟩ := decomp_of_mem_nodup hmem hwf
      have hl₁' : ∀ b ∈ l₁, b.id ≠ i := fun b hb => haid ▸ hl₁ b hb
      have hl₂' : ∀ b ∈ l₂, b.id ≠ i := fun b hb => haid ▸ hl₂ b hb
      refine ⟨a, { a with status := toStatus, updatedAt := dbNow }, l₁, l₂,
        hdec, haid, hast, hl₁', hl₂', rfl, rfl, rfl, rfl, rfl, rfl, ?_, ?_⟩
      · have hred : (updateAppointmentStatus db i fromStatus toStatus dbNow).2.appointments =
            db.appointments.map (fun b => if b.id == i then
              ({ a with status := toStatus, updatedAt := dbNow }) else b) := by
          simp [updateAppointmentStatus, hfind, hidx]
        rw [hred, hdec, List.map_append, List.map_cons,
          map_update_of_not_mem l₁ i _ hl₁', map_update_of_not_mem l₂ i _ hl₂',
          if_pos (by simp [haid])]
      · intro htc b hb hbid hcontra
        apply hidx
        have hany : db.appointments.any
            (fun b => !(b.id == i) && b.slotID == a.slotID && b.status == .confirmed) = true :=
          List.any_eq_true.mpr ⟨b, hb, by simp [hbid, hcontra.1, hcontra.2]⟩
        simp [htc, hany]

/-- Every engine write step preserves distinctness of appointment ids
(the appointments primary key). -/
theorem step_preserves_wf {db db' : DB} (h : Step db db') (hwf : WF db) : WF db' := by
  cases h with
  | createPending n sl p e t =>
    rcases createPending_appointments db n sl p e t with
      he | ⟨row, hfresh, hrid, _, _, _, _, _, happ⟩
    · rwa [he]
    · show (((createPendingAppointment db n sl p e t).2).appointments.map
        (fun a => a.id)).Nodup
      rw [happ, List.map_append, List.nodup_append]
      refine ⟨hwf, by simp, ?_⟩
      intro x hxl hxr
      simp only [List.map_cons, List.map_nil, List.mem_singleton] at hxr
      obtain ⟨b, hb, rfl⟩ := List.mem_map.mp hxl
      exact hfresh b hb (hxr.trans hrid)
  | confirmUpdate i t =>
    rcases updateStatus_appointments db i .pending .confirmed t hwf with
      he | ⟨a, a', l₁, l₂, hdec, haid, hast, hl₁, hl₂, hid, _, _, _, _, _, happ, hcf⟩
    · rwa [he]
    · show (((updateAppointmentStatus db i .pending .confirmed t).2).appointments.map
        (fun a => a.id)).Nodup
      rw [happ]
      simp only [List.map_append, List.map_cons, hid]
      unfold WF at hwf
      rw [hdec] at hwf
      simpa using hwf
  | expireUpdate i t =>
    rcases updateStatus_appointments db i .pending .expired t hwf with
      he | ⟨a, a', l₁, l₂, hdec, haid, hast, hl₁, hl₂, hid, _, _, _, _, _, happ, hcf⟩
    · rwa [he]
    · show (((updateAppointmentStatus db i .pending .expired t).2).appointments.map
        (fun a => a.id)).Nodup
      rw [happ]
      simp only [List.map_append, List.map_cons, hid]
      unfold WF at hwf
      rw [hdec] at hwf
      simpa using hwf
  | appendEvent ty aid pl c =>
    exact hwf

/-- Every engine write step preserves the at-most-one-confirmed invariant:
the pending insert never adds a confirmed row, and the only write that could
produce a second confirmed row for a slot is the conditional confirm update,
which the partial unique index rejects in exactly that situation. -/
theorem step_preserves_confirmed {db db' : DB} (h : Step db db') (hwf : WF db)
    (hinv : AtMostOneConfirmedPerSlot db) : AtMostOneConfirmedPerSlot db' := by
  cases h with
  | createPending n sl p e t =>
    intro s
    rcases createPending_appointments db n sl p e t with
      he | ⟨row, hfresh, hrid, hrsl, hrp, hrst, hrc, hre, happ⟩
    · rw [he]; exact hinv s
    · unfold confirmedCount
      rw [happ, List.countP_append, List.countP_cons, List.countP_nil]
      have hz : (row.slotID == s && row.status == AppointmentStatus.confirmed) = false := by
        simp [hrst]
      rw [hz]
      simpa using hinv s
  | confirmUpdate i t =>
    intro s
    rcases updateStatus_appointments db i .pending .confirmed t hwf with
      he | ⟨a, a', l₁, l₂, hdec, haid, hast, hl₁, hl₂, hid, hsl, hp, hst, hc, he',
        happ, hcf⟩
    · rw [he]; exact hinv s
    · have hinv' := hinv s
      unfold confirmedCount at hinv' ⊢
      rw [hdec, List.countP_append, List.countP_cons] at hinv'
      rw [happ, List.countP_append, List.countP_cons]
      have hpa : (a.slotID == s && a.status == AppointmentStatus.confirmed) = false := by
        simp [hast]
      rw [hpa] at hinv'
      by_cases hs : a.slotID = s
      · have h₁ : l₁.countP
            (fun b => b.slotID == s && b.status == AppointmentStatus.confirmed) = 0 := by
          rw [List.countP_eq_zero]
          intro b hb
          have hnc := hcf rfl b (by rw [hdec]; exact List.mem_append_left _ hb) (hl₁ b hb)
          simp only [Bool.and_eq_true, beq_iff_eq, not_and] at hnc ⊢
          intro hbs
          exact fun hbc => hnc (hs ▸ hbs) hbc
        have h₂ : l₂.countP
            (fun b => b.slotID == s && b.status == AppointmentStatus.confirmed) = 0 := by
          rw [List.countP_eq_zero]
          intro b hb
          have hnc := hcf rfl b
            (by rw [hdec]; exact List.mem_append_right _ (List.mem_cons_of_mem _ hb))
            (hl₂ b hb)
          simp only [Bool.and_eq_true, beq_iff_eq, not_and] at hnc ⊢
          intro hbs
          exact fun hbc => hnc (hs ▸ hbs) hbc
        simp only [h₁, h₂, List.countP_cons]
        split <;> simp
      · have hpa' : (a'.slotID == s && a'.status == AppointmentStatus.confirmed) = false := by
          simp [hsl, hs]
        rw [hpa']
        simpa using hinv'
  | expireUpdate i t =>
    intro s
    rcases updateStatus_appointments db i .pending .expired t hwf with
      he | ⟨a, a', l₁, l₂, hdec, haid, hast, hl₁, hl₂, hid, hsl, hp, hst, hc, he',
        happ, hcf⟩
    · rw [he]; exact hinv s
    · have hinv' := hinv s
      unfold confirmedCount at hinv' ⊢
      rw [hdec, List.countP_append, List.countP_cons] at hinv'
      rw [happ, List.countP_append, List.countP_cons]
      have hpa : (a.slotID == s && a.status == AppointmentStatus.confirmed) = false := by
        simp [hast]
      have hpa' : (a'.slotID == s && a'.status == AppointmentStatus.confirmed) = false := by
        simp [hst]
      rw [hpa] at hinv'
      rw [hpa']
      exact hinv'
  | appendEvent ty aid pl c =>
    intro s
    exact hinv s

/-- Reachability preserves well-formedness together with the invariant. -/
theorem reachable_preserves {db₀ db : DB} (hr : Reachable db₀ db)
    (h : WF db₀ ∧ AtMostOneConfirmedPerSlot db₀) :
    WF db ∧ AtMostOneConfirmedPerSlot db := by
  induction hr with
  | refl => exact h
  | tail _ hstep ih =>
    exact ⟨step_preserves_wf hstep ih.1, step_preserves_confirmed hstep ih.1 ih.2⟩

/-- Reachability preserves well-formedness alone. -/
theorem reachable_wf {db₀ db : DB} (hr : Reachable db₀ db) (hwf : WF db₀) : WF db := by
  induction hr with
  | refl => exact hwf
  | tail _ hstep ih => exact step_preserves_wf hstep ih

/-- One-step lifecycle facts: every row of the pre-state persists with the
same status or a Pending-to-Confirmed/Expired change, and every row of the
post-state is either an old row (possibly so updated) or a fresh Pending
insert. -/
theorem step_props {db db' : DB} (h : Step db db') (hwf : WF db) :
    (∀ a ∈ db.appointments, ∃ b ∈ db'.appointments, b.id = a.id ∧
      (b.status = a.status ∨
        (a.status = .pending ∧ (b.status = .confirmed ∨ b.status = .expired)))) ∧
    (∀ a' ∈ db'.appointments,
      (∃ a ∈ db.appointments, a.id = a'.id ∧
        (a'.status = a.status ∨
          (a.status = .pending ∧ (a'.status = .confirmed ∨ a'.status = .expired)))) ∨
      ((∀ a ∈ db.appointments, a.id ≠ a'.id) ∧ a'.status = .pending)) := by
  cases h with
  | createPending n sl p e t =>
    rcases createPending_appointments db n sl p e t with
      he | ⟨row, hfresh, hrid, _, _, hrst, _, _, happ⟩
    · rw [he]
      exact ⟨fun a ha => ⟨a, ha, rfl, Or.inl rfl⟩,
        fun a' ha' => Or.inl ⟨a', ha', rfl, Or.inl rfl⟩⟩
    · constructor
      · intro a ha
        refine ⟨a, ?_, rfl, Or.inl rfl⟩
        rw [happ]
        exact List.mem_append_left _ ha
      · intro a' ha'
        rw [happ] at ha'
        rcases List.mem_append.mp ha' with hold | hnew
        · exact Or.inl ⟨a', hold, rfl, Or.inl rfl⟩
        · rcases List.mem_singleton.mp hnew with rfl
          exact Or.inr ⟨fun a ha heq => hfresh a ha (heq.trans hrid), hrst⟩
  | confirmUpdate i t =>
    rcases updateStatus_appointments db i .pending .confirmed t hwf with
      he | ⟨a0, a0', l₁, l₂, hdec, haid, hast, hl₁, hl₂, hid, _, _, hst, _, _, happ, _⟩
    · rw [he]
      exact ⟨fun a ha => ⟨a, ha, rfl, Or.inl rfl⟩,
        fun a' ha' => Or.inl ⟨a', ha', rfl, Or.inl rfl⟩⟩
    · constructor
      · intro a ha
        rw [hdec] at ha
        rcases List.mem_append.mp ha with h1 | h2
        · exact ⟨a, by rw [happ]; exact List.mem_append_left _ h1, rfl, Or.inl rfl⟩
        · rcases List.mem_cons.mp h2 with rfl | h3
          · exact ⟨a0', by rw [happ]; exact List.mem_append_right _ (List.mem_cons_self _ _),
              hid, Or.inr ⟨hast, Or.inl hst⟩⟩
          · exact ⟨a, by rw [happ]; exact List.mem_append_right _ (List.mem_cons_of_mem _ h3),
              rfl, Or.inl rfl⟩
      · intro a' ha'
        rw [happ] at ha'
        rcases List.mem_append.mp ha' with h1 | h2
        · exact Or.inl ⟨a', by rw [hdec]; exact List.mem_append_left _ h1, rfl, Or.inl rfl⟩
        · rcases List.mem_cons.mp h2 with rfl | h3
          · exact Or.inl ⟨a0, by rw [hdec]; exact List.mem_append_right _ (List.mem_cons_self _ _),
              hid.symm, Or.inr ⟨hast, Or.inl hst⟩⟩
          · exact Or.inl ⟨a', by rw [hdec]; exact List.mem_append_right _ (List.mem_cons_of_mem _ h3),
              rfl, Or.inl rfl⟩
  | expireUpdate i t =>
    rcases updateStatus_appointments db i .pending .expired t hwf with
      he | ⟨a0, a0', l₁, l₂, hdec, haid, hast, hl₁, hl₂, hid, _, _, hst, _, _, happ, _⟩
    · rw [he]
      exact ⟨fun a ha => ⟨a, ha, rfl, Or.inl rfl⟩,
        fun a' ha' => Or.inl ⟨a', ha', rfl, Or.inl rfl⟩⟩
    · constructor
      · intro a ha
        rw [hdec] at ha
        rcases List.mem_append.mp ha with h1 | h2
        · exact ⟨a, by rw [happ]; exact List.mem_append_left _ h1, rfl, Or.inl rfl⟩
        · rcases List.mem_cons.mp h2 with rfl | h3
          · exact ⟨a0', by rw [happ]; exact List.mem_append_right _ (List.mem_cons_self _ _),
              hid, Or.inr ⟨hast, Or.inr hst⟩⟩
          · exact ⟨a, by rw [happ]; exact List.mem_append_right _ (List.mem_cons_of_mem _ h3),
              rfl, Or.inl rfl⟩
      · intro a' ha'
        rw [happ] at ha'
        rcases List.mem_append.mp ha' with h1 | h2
        · exact Or.inl ⟨a', by rw [hdec]; exact List.mem_append_left _ h1, rfl, Or.inl rfl⟩
        · rcases List.mem_cons.mp h2 with rfl | h3
          · exact Or.inl ⟨a0, by rw [hdec]; exact List.mem_append_right _ (List.mem_cons_self _ _),
              hid.symm, Or.inr ⟨hast, Or.inr hst⟩⟩
          · exact Or.inl ⟨a', by rw [hdec]; exact List.mem_append_right _ (List.mem_cons_of_mem _ h3),
              rfl, Or.inl rfl⟩
  | appendEvent ty aid pl c =>
    exact ⟨fun a ha => ⟨a, ha, rfl, Or.inl rfl⟩,
      fun a' ha' => Or.inl ⟨a', ha', rfl, Or.inl rfl⟩⟩

/-- Statuses out of which section 4.3 of the spec allows no edge. -/
def TerminalStatus (st : AppointmentStatus) : Prop :=
  st = .confirmed ∨ st = .expired ∨ st = .cancelled

/-- Along any reachable execution, a row in a terminal status persists with
its id and status intact. -/
theorem reachable_terminal_persists {db₀ db : DB} (hr : Reachable db₀ db)
    (hwf : WF db₀) :
    ∀ a ∈ db₀.appointments, TerminalStatus a.status →
      ∃ b ∈ db.appointments, b.id = a.id ∧ b.status = a.status := by
  induction hr with
  | refl => exact fun a ha _ => ⟨a, ha, rfl, rfl⟩
  | tail hr' hstep ih =>
    intro a ha hterm
    obtain ⟨bm, hbm, hbid, hbst⟩ := ih a ha hterm
    obtain ⟨b, hb, hbid', hch⟩ := (step_props hstep (reachable_wf hr' hwf)).1 bm hbm
    refine ⟨b, hb, hbid'.trans hbid, ?_⟩
    rcases hch with heq | ⟨hpend, _⟩
    · exact heq.trans hbst
    · have hap : a.status = .pending := (hbst.symm.trans hpend)
      rcases hterm with h | h | h <;> simp [h] at hap

/-! ## Claim theorems: invariants -/

/-- C1: for every slot and every state reachable through the engine's write
statements from a well-formed state satisfying the invariant, at most one
appointment with that slot id is Confirmed; every step preserves this —
CreatePendingAppointment only inserts Pending rows, and the only path to
Confirmed is the conditional Pending-to-Confirmed update, which the partial
unique index uniq_confirmed_appointment_per_slot rejects when a Confirmed
row for the slot already exists. -/
theorem confirmed_unique_per_slot (db₀ db : DB) (hwf : WF db₀)
    (hinv : AtMostOneConfirmedPerSlot db₀) (hr : Reachable db₀ db) :
    AtMostOneConfirmedPerSlot db :=
  (reachable_preserves hr ⟨hwf, hinv⟩).2

/-- Concrete initial state for the C1 witness: one patient, one clinician,
one open slot, no appointments. -/
def dbC1 : DB :=
  { patients := [{ id := 10, name := "alice", email := none,
                   createdAt := 0, updatedAt := 0 }],
    clinicians := [{ id := 30, name := "dr", specialty := none,
                     createdAt := 0, updatedAt := 0 }],
    slots := [{ id := 20, practitionerID := 30, startTime := 0, endTime := 10,
                status := .slotOpen, capacity := 1,
                createdAt := 0, updatedAt := 0 }],
    appointments := [], events := [], nextEventId := 1 }

/-- Witness for C1: after a concrete pending insert followed by a concrete
confirm update, the invariant holds. -/
theorem confirmed_unique_per_slot_witness :
    AtMostOneConfirmedPerSlot
      (updateAppointmentStatus (createPendingAppointment dbC1 100 20 10 60 0).2
        100 .pending .confirmed 5).2 :=
  confirmed_unique_per_slot dbC1 _
    (by show (dbC1.appointments.map (fun a => a.id)).Nodup; decide)
    (fun s => by simp [confirmedCount, dbC1])
    (Relation.ReflTransGen.tail
      (Relation.ReflTransGen.single (Step.createPending dbC1 100 20 10 60 0))
      (Step.confirmUpdate _ 100 5))

/-- C2: rows are only created Pending (CreatePendingAppointment inserts the
status literal 'pending'), every status change performed by an engine write
step is Pending-to-Confirmed or Pending-to-Expired, and consequently along
any reachable execution an appointment in a terminal status (Confirmed,
Expired or Cancelled) never changes status again. -/
theorem lifecycle_monotonic (db db' : DB) (hwf : WF db) :
    (Step db db' →
      (∀ a' ∈ db'.appointments,
        (∀ a ∈ db.appointments, a.id ≠ a'.id) → a'.status = .pending) ∧
      (∀ a ∈ db.appointments, ∀ a' ∈ db'.appointments, a.id = a'.id →
        a'.status = a.status ∨
        (a.status = .pending ∧ (a'.status = .confirmed ∨ a'.status = .expired)))) ∧
    (Reachable db db' → WF db' ∧
      ∀ a ∈ db.appointments, ∀ a' ∈ db'.appointments, a.id = a'.id →
        TerminalStatus a.status → a'.status = a.status) := by
  constructor
  · intro hstep
    constructor
    · intro a' ha' hfresh
      rcases (step_props hstep hwf).2 a' ha' with ⟨a, ha, haid, _⟩ | ⟨_, hp⟩
      · exact absurd haid (hfresh a ha)
      · exact hp
    · intro a ha a' ha' haid
      rcases (step_props hstep hwf).2 a' ha' with ⟨a0, ha0, ha0id, hch⟩ | ⟨hfresh, _⟩
      · have heq : a = a0 := mem_id_inj hwf ha ha0 (haid.trans ha0id.symm)
        rw [heq]
        exact hch
      · exact absurd haid (hfresh a ha)
  · intro hr
    have hwf' := reachable_wf hr hwf
    refine ⟨hwf', ?_⟩
    intro a ha a' ha' haid hterm
    obtain ⟨b, hb, hbid, hbst⟩ := reachable_terminal_persists hr hwf a ha hterm
    have heq : a' = b := mem_id_inj hwf' ha' hb (haid.symm.trans hbid.symm)
    rw [heq, hbst]

/-- Concrete state for the C2 witness: one confirmed appointment already in
place, a patient and an open slot for a further pending insert. -/
def dbC2 : DB :=
  { patients := [{ id := 3, name := "bob", email := none,
                   createdAt := 0, updatedAt := 0 }],
    clinicians := [{ id := 4, name := "dr", specialty := none,
                     createdAt := 0, updatedAt := 0 }],
    slots := [{ id := 2, practitionerID := 4, startTime := 0, endTime := 10,
                status := .slotOpen, capacity := 1,
                createdAt := 0, updatedAt := 0 }],
    appointments := [{ id := 1, slotID := 2, patientID := 3,
                       status := .confirmed, createdAt := 0, updatedAt := 0,
                       expiresAt := none }],
    events := [], nextEventId := 1 }

/-- The C2 witness post-state: dbC2 after one concrete pending insert. -/
def dbC2' : DB := (createPendingAppointment dbC2 9 2 3 50 0).2

/-- Witness for C2 at a concrete step: the fresh row is Pending and the
already-Confirmed row keeps its status, both one-step and along the
reachable closure. -/
theorem lifecycle_monotonic_witness :
    WF dbC2 ∧
    ((∀ a' ∈ dbC2'.appointments,
        (∀ a ∈ dbC2.appointments, a.id ≠ a'.id) → a'.status = .pending) ∧
      (∀ a ∈ dbC2.appointments, ∀ a' ∈ dbC2'.appointments, a.id = a'.id →
        a'.status = a.status ∨
        (a.status = .pending ∧ (a'.status = .confirmed ∨ a'.status = .expired)))) ∧
    (WF dbC2' ∧
      ∀ a ∈ dbC2.appointments, ∀ a' ∈ dbC2'.appointments, a.id = a'.id →
        TerminalStatus a.status → a'.status = a.status) := by
  have hwf : WF dbC2 := by
    show (dbC2.appointments.map (fun a => a.id)).Nodup; decide
  exact ⟨hwf,
    (lifecycle_monotonic dbC2 dbC2' hwf).1 (Step.createPending dbC2 9 2 3 50 0),
    (lifecycle_monotonic dbC2 dbC2' hwf).2
      (Relation.ReflTransGen.single (Step.createPending dbC2 9 2 3 50 0))⟩

/-! ## Claim theorems: create -/

/-- C3: createAppointment returns exactly one of PatientNotFound (patient
absent), SlotNotFound (slot absent), SlotNotOpen (slot status not Open) —
checked before the lock in that order — SlotBeingBooked (lock not acquired),
SlotAlreadyBooked (a Confirmed appointment for the slot exists inside the
lock), or a new appointment with status Pending and
expires_at = now + appointmentTTL. -/
theorem createAppointment_cases (db : DB) (ls : LockStore) (slotID patientID : Id)
    (attl lttl : Time) (now dbNow : Time) (newApptId : Id) (token : Nat)
    (ctxD : Option Time) :
    (db.patients.find? (fun p => p.id == patientID) = none →
      createAppointment db ls slotID patientID attl lttl now dbNow newApptId token ctxD =
        (.error .patientNotFound, db, ls)) ∧
    (∀ pt, db.patients.find? (fun p => p.id == patientID) = some pt →
      db.slots.find? (fun s => s.id == slotID) = none →
      createAppointment db ls slotID patientID attl lttl now dbNow newApptId token ctxD =
        (.error .slotNotFound, db, ls)) ∧
    (∀ pt slot, db.patients.find? (fun p => p.id == patientID) = some pt →
      db.slots.find? (fun s => s.id == slotID) = some slot →
      slot.status ≠ .slotOpen →
      createAppointment db ls slotID patientID attl lttl now dbNow newApptId token ctxD =
        (.error .slotNotOpen, db, ls)) ∧
    (∀ pt slot, db.patients.find? (fun p => p.id == patientID) = some pt →
      db.slots.find? (fun s => s.id == slotID) = some slot →
      slot.status = .slotOpen →
      (lockGet ls slotID).isSome = true →
      createAppointment db ls slotID patientID attl lttl now dbNow newApptId token ctxD =
        (.error .slotBeingBooked, db, ls)) ∧
    (∀ pt slot c, db.patients.find? (fun p => p.id == patientID) = some pt →
      db.slots.find? (fun s => s.id == slotID) = some slot →
      slot.status = .slotOpen →
      lockGet ls slotID = none →
      db.appointments.find?
        (fun a => a.slotID == slotID && a.status == .confirmed) = some c →
      (createAppointment db ls slotID patientID attl lttl now dbNow newApptId token ctxD).1 =
          .error .slotAlreadyBooked ∧
      (createAppointment db ls slotID patientID attl lttl now dbNow newApptId token ctxD).2.1 =
          db) ∧
    (∀ pt slot, db.patients.find? (fun p => p.id == patientID) = some pt →
      db.slots.find? (fun s => s.id == slotID) = some slot →
      slot.status = .slotOpen →
      lockGet ls slotID = none →
      db.appointments.find?
        (fun a => a.slotID == slotID && a.status == .confirmed) = none →
      (∀ b ∈ db.appointments, b.id ≠ newApptId) →
      now + attl > dbNow →
      ∃ a, (createAppointment db ls slotID patientID attl lttl now dbNow newApptId token ctxD).1 =
          .ok a ∧
        a.status = .pending ∧ a.expiresAt = some (now + attl) ∧
        a.slotID = slotID ∧ a.patientID = patientID ∧ a.id = newApptId ∧
        a ∈ (createAppointment db ls slotID patientID attl lttl now dbNow newApptId token ctxD).2.1.appointments) := by
  refine ⟨?_, ?_, ?_, ?_, ?_, ?_⟩
  · intro hpat
    simp [createAppointment, getPatientByID, hpat]
  · intro pt hpat hslot
    simp [createAppointment, getPatientByID, getSlotByID, hpat, hslot]
  · intro pt slot hpat hslot hst
    simp [createAppointment, getPatientByID, getSlotByID, hpat, hslot, hst]
  · intro pt slot hpat hslot hst hlock
    simp [createAppointment, getPatientByID, getSlotByID, hpat, hslot, hst,
      withSlotLock, setNX, hlock]
  · intro pt slot c hpat hslot hst hlock hconf
    constructor <;>
      simp [createAppointment, getPatientByID, getSlotByID,
        getConfirmedAppointmentForSlot, hpat, hslot, hst,
        withSlotLock, setNX, hlock, hconf]
  · intro pt slot hpat hslot hst hlock hconf hfresh hchk
    have hany : db.appointments.any (fun a => a.id == newApptId) = false := by
      rw [List.any_eq_false]
      intro b hb
      simp [hfresh b hb]
    have hps := List.find?_some hslot
    have hpp := List.find?_some hpat
    have hfs : db.slots.any (fun s => s.id == slotID) = true :=
      List.any_eq_true.mpr ⟨slot, List.mem_of_find?_eq_some hslot, hps⟩
    have hfp : db.patients.any (fun p => p.id == patientID) = true :=
      List.any_eq_true.mpr ⟨pt, List.mem_of_find?_eq_some hpat, hpp⟩
    refine ⟨{ id := newApptId, slotID := slotID, patientID := patientID,
              status := .pending, createdAt := dbNow, updatedAt := dbNow,
              expiresAt := some (now + attl) }, ?_, rfl, rfl, rfl, rfl, rfl, ?_⟩
    · simp [createAppointment, getPatientByID, getSlotByID,
        getConfirmedAppointmentForSlot, hpat, hslot, hst,
        withSlotLock, setNX, hlock, hconf, createPendingAppointment,
        hany, hfs, hfp, hchk, logEvent, insertEvent]
    · simp [createAppointment, getPatientByID, getSlotByID,
        getConfirmedAppointmentForSlot, hpat, hslot, hst,
        withSlotLock, setNX, hlock, hconf, createPendingAppointment,
        hany, hfs, hfp, hchk, logEvent, insertEvent]

/-- Patient row for the C3 witness. -/
def patC3 : Patient :=
  { id := 10, name := "alice", email := none, createdAt := 0, updatedAt := 0 }

/-- Open slot row for the C3 witness. -/
def slotC3 : AppointmentSlot :=
  { id := 20, practitionerID := 30, startTime := 0, endTime := 10,
    status := .slotOpen, capacity := 1, createdAt := 0, updatedAt := 0 }

/-- Concrete state for the C3 witness. -/
def dbC3 : DB :=
  { patients := [patC3],
    clinicians := [{ id := 30, name := "dr", specialty := none,
                     createdAt := 0, updatedAt := 0 }],
    slots := [slotC3],
    appointments := [], events := [], nextEventId := 1 }

/-- Witness for C3: on a concrete open slot with a free lock, create yields
a Pending appointment expiring at now + appointmentTTL. -/
theorem createAppointment_cases_witness :
    ∃ a, (createAppointment dbC3 [] 20 10 60 5 100 0 7 99 none).1 = .ok a ∧
      a.status = .pending ∧ a.expiresAt = some (100 + 60) ∧
      a.slotID = 20 ∧ a.patientID = 10 ∧ a.id = 7 ∧
      a ∈ (createAppointment dbC3 [] 20 10 60 5 100 0 7 99 none).2.1.appointments :=
  (createAppointment_cases dbC3 [] 20 10 60 5 100 0 7 99 none).2.2.2.2.2
    patC3 slotC3 rfl rfl rfl rfl rfl
    (fun b hb => absurd hb (List.not_mem_nil b)) (by decide)

/-! ## Claim theorems: confirm -/

/-- C4: after loading the appointment, confirm returns AppointmentExpired
when the loaded status is Expired; otherwise, when expires_at is present and
before now, it attempts a best-effort conditional Pending-to-Expired update,
appends APPOINTMENT_EXPIRED with reason confirm_after_expiry and returns
AppointmentExpired; otherwise, when the status is not Pending, it returns
InvalidStatusTransition — the checks in exactly that order, whatever writes
concurrent actors interleave after the load. -/
theorem confirmAppointment_checks (db : DB) (i : Id) (now dbNow : Time)
    (mid : DB → DB) :
    (∀ appt, db.appointments.find? (fun a => a.id == i) = some appt →
      appt.status = .expired →
      (confirmAppointment db i now dbNow mid).1 = .error .appointmentExpired) ∧
    (∀ appt e, db.appointments.find? (fun a => a.id == i) = some appt →
      appt.status ≠ .expired → appt.expiresAt = some e → e < now →
      confirmAppointment db i now dbNow mid =
        (.error .appointmentExpired,
         logEvent (updateAppointmentStatus (mid db) appt.id .pending .expired dbNow).2
           appt.id EventAppointmentExpired
           [("reason", .str "confirm_after_expiry")] now) ∧
      ∃ ev ∈ (confirmAppointment db i now dbNow mid).2.events,
        ev.eventType = EventAppointmentExpired ∧
        ev.appointmentID = some appt.id ∧
        ev.payload = [("reason", .str "confirm_after_expiry")]) ∧
    (∀ appt, db.appointments.find? (fun a => a.id == i) = some appt →
      appt.status ≠ .expired →
      (∀ e, appt.expiresAt = some e → ¬(e < now)) →
      appt.status ≠ .pending →
      (confirmAppointment db i now dbNow mid).1 =
        .error .invalidStatusTransition) := by
  refine ⟨?_, ?_, ?_⟩
  · intro appt hfind hst
    simp [confirmAppointment, getAppointmentByID, hfind, hst]
  · intro appt e hfind hst hexp he
    have hst' : (appt.status == AppointmentStatus.expired) = false := by
      simp [hst]
    have heq : confirmAppointment db i now dbNow mid =
        (.error .appointmentExpired,
         logEvent (updateAppointmentStatus (mid db) appt.id .pending .expired dbNow).2
           appt.id EventAppointmentExpired
           [("reason", .str "confirm_after_expiry")] now) := by
      simp [confirmAppointment, getAppointmentByID, hfind, hst', hexp, he]
    refine ⟨heq, ?_⟩
    rw [heq]
    refine ⟨{ id := (updateAppointmentStatus (mid db) appt.id .pending .expired dbNow).2.nextEventId,
              eventType := EventAppointmentExpired,
              appointmentID := some appt.id,
              payload := [("reason", .str "confirm_after_expiry")],
              createdAt := now }, ?_, rfl, rfl, rfl⟩
    simp [logEvent, insertEvent]
  · intro appt hfind hst hexp hpend
    have hst' : (appt.status == AppointmentStatus.expired) = false := by
      simp [hst]
    have hany : appt.expiresAt.any (fun e => decide (e < now)) = false := by
      cases hcase : appt.expiresAt with
      | none => rfl
      | some e => simp [hexp e hcase]
    simp [confirmAppointment, getAppointmentByID, hfind, hst', hany, hpend]

/-- Pending appointment whose hold has lapsed, for the C4 witness. -/
def apC4 : Appointment :=
  { id := 1, slotID := 2, patientID := 3, status := .pending,
    createdAt := 0, updatedAt := 0, expiresAt := some 5 }

/-- Concrete state for the C4 witness. -/
def dbC4 : DB :=
  { patients := [], clinicians := [], slots := [],
    appointments := [apC4], events := [], nextEventId := 1 }

/-- Witness for C4: confirming a pending appointment whose expires_at lies
in the past yields AppointmentExpired and logs the confirm_after_expiry
event. -/
theorem confirmAppointment_checks_witness :
    (confirmAppointment dbC4 1 10 0 (fun d => d)).1 = .error .appointmentExpired ∧
    ∃ ev ∈ (confirmAppointment dbC4 1 10 0 (fun d => d)).2.events,
      ev.eventType = EventAppointmentExpired ∧
      ev.appointmentID = some apC4.id ∧
      ev.payload = [("reason", .str "confirm_after_expiry")] := by
  have h := (confirmAppointment_checks dbC4 1 10 0 (fun d => d)).2.1 apC4 5
    rfl (by decide) rfl (by decide)
  exact ⟨by rw [h.1], h.2⟩

/-- C5 (amended): when the conditional Pending-to-Confirmed update returns
NotFound because the row's status changed beneath the call, confirm wraps
the error ("confirm appointment: %w", preserving errors.Is) and returns it
to the caller; it performs no reload and no translation to
AppointmentExpired or InvalidStatusTransition. -/
theorem confirm_notFound_surfaces (db : DB) (i : Id) (now dbNow : Time)
    (mid : DB → DB) (appt : Appointment)
    (hfind : db.appointments.find? (fun a => a.id == i) = some appt)
    (hst : appt.status = .pending)
    (hexp : ∀ e, appt.expiresAt = some e → ¬(e < now))
    (hupd : (updateAppointmentStatus (mid db) appt.id .pending .confirmed dbNow).1 =
      .error .appointmentNotFound) :
    confirmAppointment db i now dbNow mid =
      (.error .appointmentNotFound,
       (updateAppointmentStatus (mid db) appt.id .pending .confirmed dbNow).2) := by
  have hst' : (appt.status == AppointmentStatus.expired) = false := by
    simp [hst]
  have hany : appt.expiresAt.any (fun e => decide (e < now)) = false := by
    cases hcase : appt.expiresAt with
    | none => rfl
    | some e => simp [hexp e hcase]
  have hpend : (appt.status != AppointmentStatus.pending) = false := by
    simp [hst]
  cases hu : updateAppointmentStatus (mid db) appt.id .pending .confirmed dbNow with
  | mk r st =>
    rw [hu] at hupd
    simp only at hupd
    subst hupd
    simp [confirmAppointment, getAppointmentByID, hfind, hst', hany, hpend, hu]

/-- Interfering writer for the C5 counterexample: another actor expires the
row between confirm's load and its conditional update. -/
def midC5 : DB → DB := fun d => (updateAppointmentStatus d 1 .pending .expired 0).2

/-- Pending appointment with an unexpired hold for the C5 counterexample. -/
def apC5 : Appointment :=
  { id := 1, slotID := 2, patientID := 3, status := .pending,
    createdAt := 0, updatedAt := 0, expiresAt := some 50 }

/-- Concrete state for the C5 counterexample. -/
def dbC5 : DB :=
  { patients := [], clinicians := [], slots := [],
    appointments := [apC5], events := [], nextEventId := 1 }

/-- Counterexample to C5 as stated: at this input the conditional
Pending-to-Confirmed update returns NotFound, and confirm returns that
NotFound error rather than reloading and returning AppointmentExpired or
InvalidStatusTransition. -/
theorem confirm_notFound_counterexample :
    (updateAppointmentStatus (midC5 dbC5) 1 .pending .confirmed 0).1 =
      .error .appointmentNotFound ∧
    (confirmAppointment dbC5 1 10 0 midC5).1 = .error .appointmentNotFound ∧
    (confirmAppointment dbC5 1 10 0 midC5).1 ≠ .error .appointmentExpired ∧
    (confirmAppointment dbC5 1 10 0 midC5).1 ≠ .error .invalidStatusTransition := by
  decide

/-- Witness for the amended C5 theorem at the counterexample input. -/
theorem confirm_notFound_surfaces_witness :
    confirmAppointment dbC5 1 10 0 midC5 =
      (.error .appointmentNotFound,
       (updateAppointmentStatus (midC5 dbC5) apC5.id .pending .confirmed 0).2) :=
  confirm_notFound_surfaces dbC5 1 10 0 midC5 apC5 rfl rfl
    (fun e he hlt => by
      rw [show apC5.expiresAt = some 50 from rfl] at he
      cases he
      exact absurd hlt (by decide))
    (by decide)

/-! ## Claim theorems: expiry worker -/

/-- C6 (amended): ExpirePendingAppointments carries no count — for every
input state (including states in which individual conditional updates fail,
whose errors are logged and skipped) the whole operation completes and
returns plain success, whatever writes interleave after the scan. -/
theorem expirePending_completes (db : DB) (now dbNow : Time) (mid : DB → DB) :
    (expirePendingAppointments db now dbNow mid).1 = .ok () := rfl

/-- Single expired-pending candidate for the C6 counterexample. -/
def dbC6a : DB :=
  { patients := [], clinicians := [], slots := [],
    appointments := [{ id := 1, slotID := 2, patientID := 3, status := .pending,
                       createdAt := 0, updatedAt := 0, expiresAt := some 5 }],
    events := [], nextEventId := 1 }

/-- Two expired-pending candidates for the C6 counterexample. -/
def dbC6b : DB :=
  { patients := [], clinicians := [], slots := [],
    appointments := [{ id := 1, slotID := 2, patientID := 3, status := .pending,
                       createdAt := 0, updatedAt := 0, expiresAt := some 5 },
                     { id := 4, slotID := 5, patientID := 6, status := .pending,
                       createdAt := 0, updatedAt := 0, expiresAt := some 6 }],
    events := [], nextEventId := 1 }

/-- Counterexample to C6 as stated: two runs that transition different
numbers of appointments (one and two) return the identical value, so the
operation's return value cannot be the count of appointments it
transitioned — the Go method returns only an error, nil on success. -/
theorem expirePending_no_count_counterexample :
    (expirePendingAppointments dbC6a 10 0 (fun d => d)).1 =
      (expirePendingAppointments dbC6b 10 0 (fun d => d)).1 ∧
    ((expirePendingAppointments dbC6a 10 0 (fun d => d)).2.appointments.countP
      (fun a => a.status == .expired)) = 1 ∧
    ((expirePendingAppointments dbC6b 10 0 (fun d => d)).2.appointments.countP
      (fun a => a.status == .expired)) = 2 := by
  decide

/-- C7 (amended): for a candidate processed by the expiry loop, the
APPOINTMENT_EXPIRED{reason: "worker"} event is appended when the
conditional Pending-to-Expired update succeeds and also when it returns
NotFound (the err != nil AND not-NotFound guard falls through for both);
only errors other than NotFound skip the candidate without an event. -/
theorem expireStep_worker_event (acc : DB) (appt : Appointment)
    (now dbNow : Time) :
    (((∃ u, (updateAppointmentStatus acc appt.id .pending .expired dbNow).1 = .ok u) ∨
      (updateAppointmentStatus acc appt.id .pending .expired dbNow).1 =
        .error .appointmentNotFound) →
      ∃ ev ∈ (expireStep now dbNow acc appt).events,
        ev.eventType = EventAppointmentExpired ∧
        ev.appointmentID = some appt.id ∧
        ev.payload = [("reason", .str "worker")]) ∧
    (∀ e, (updateAppointmentStatus acc appt.id .pending .expired dbNow).1 = .error e →
      e ≠ .appointmentNotFound →
      expireStep now dbNow acc appt =
        (updateAppointmentStatus acc appt.id .pending .expired dbNow).2) := by
  constructor
  · intro hcase
    have heq : expireStep now dbNow acc appt =
        logEvent (updateAppointmentStatus acc appt.id .pending .expired dbNow).2
          appt.id EventAppointmentExpired [("reason", .str "worker")] now := by
      rcases hcase with ⟨u, hu⟩ | hu
      · simp only [expireStep]
        rw [hu]
      · simp only [expireStep]
        rw [hu]
        simp
    rw [heq]
    refine ⟨{ id := (updateAppointmentStatus acc appt.id .pending .expired dbNow).2.nextEventId,
              eventType := EventAppointmentExpired,
              appointmentID := some appt.id,
              payload := [("reason", .str "worker")],
              createdAt := now }, ?_, rfl, rfl, rfl⟩
    simp [logEvent, insertEvent]
  · intro e hu hne
    simp only [expireStep]
    rw [hu]
    simp [hne]

/-- Pending appointment with a lapsed hold for the C7 scenario. -/
def apC7 : Appointment :=
  { id := 1, slotID := 2, patientID := 3, status := .pending,
    createdAt := 0, updatedAt := 0, expiresAt := some 5 }

/-- Concrete state for the C7 scenario. -/
def dbC7 : DB :=
  { patients := [], clinicians := [], slots := [],
    appointments := [apC7], events := [], nextEventId := 1 }

/-- Interfering writer for the C7 counterexample: another worker expires the
candidate between the scan and the update loop. -/
def midC7 : DB → DB := fun d => (updateAppointmentStatus d 1 .pending .expired 0).2

/-- Counterexample to C7 as stated: at this input the candidate's
conditional update returns NotFound — another actor already expired it —
yet the loop still appends an APPOINTMENT_EXPIRED{reason: "worker"} event
for it. -/
theorem expire_worker_event_counterexample :
    (updateAppointmentStatus (midC7 dbC7) 1 .pending .expired 0).1 =
      .error .appointmentNotFound ∧
    ((expirePendingAppointments dbC7 10 0 midC7).2.events.any
      (fun ev => ev.eventType == EventAppointmentExpired &&
        ev.appointmentID == some 1 &&
        ev.payload == [("reason", .str "worker")])) = true := by
  decide

/-- Witness for the amended C7 theorem: a successful conditional update
appends the worker event. -/
theorem expireStep_worker_event_witness :
    ∃ ev ∈ (expireStep 10 0 dbC7 apC7).events,
      ev.eventType = EventAppointmentExpired ∧
      ev.appointmentID = some apC7.id ∧
      ev.payload = [("reason", .str "worker")] :=
  (expireStep_worker_event dbC7 apC7 10 0).1
    (Or.inl ⟨{ id := 1, slotID := 2, patientID := 3, status := .expired,
               createdAt := 0, updatedAt := 0, expiresAt := some 5 }, by decide⟩)

/-! ## Claim theorems: lock, hydrated read, paging -/

/-- C8: WithSlotLock either fails with NotAcquired without running the body
and leaving both the state and the lock store untouched (non-blocking
SETNX), or runs the body under the deadline ctxWithTimeout — which is the
minimum of the caller's deadline and now + lockTTL — and on every exit path
(the result being ok or error alike) attempts the release; the release
deletes the lock key exactly when its stored value equals the token chosen
at acquire time, so releasing a lock taken over by another holder is a
no-op. -/
theorem withSlotLock_spec {σ α : Type} (ls : LockStore) (slotID : Id)
    (token : Nat) (lockTTL now : Time) (ctxD : Option Time)
    (interfere : LockStore → LockStore)
    (body : Option Time → σ → Except Err α × σ) (st : σ) :
    ((lockGet ls slotID).isSome = true →
      withSlotLock ls slotID token lockTTL now ctxD interfere body st =
        (.error .lockNotAcquired, st, ls)) ∧
    (lockGet ls slotID = none →
      withSlotLock ls slotID token lockTTL now ctxD interfere body st =
        ((body (ctxWithTimeout ctxD now lockTTL) st).1,
         (body (ctxWithTimeout ctxD now lockTTL) st).2,
         lockRelease (interfere ((slotID, token) :: ls)) slotID token)) ∧
    (∀ d, ctxWithTimeout (some d) now lockTTL = some (min d (now + lockTTL))) ∧
    (∀ ls' : LockStore, lockGet ls' slotID ≠ some token →
      lockRelease ls' slotID token = ls') ∧
    (∀ ls' : LockStore, lockGet ls' slotID = some token →
      lockRelease ls' slotID token =
        ls'.filter (fun kv => !(kv.1 == slotID))) := by
  refine ⟨?_, ?_, fun d => rfl, ?_, ?_⟩
  · intro hsome
    simp [withSlotLock, setNX, hsome]
  · intro hnone
    simp [withSlotLock, setNX, hnone]
  · intro ls' hne
    unfold lockRelease unlockScriptRun
    cases hg : lockGet ls' slotID with
    | none => rfl
    | some v =>
      have hv : (v == token) = false := by
        simp only [beq_eq_false_iff_ne]
        intro hvt
        exact hne (hvt ▸ hg)
      simp [hv]
  · intro ls' hsome
    unfold lockRelease unlockScriptRun
    rw [hsome]
    simp

/-- Witness for C8: a held key refuses acquisition leaving everything
untouched; release with a non-matching token is a no-op; release with the
matching token deletes the key. -/
theorem withSlotLock_spec_witness :
    withSlotLock [(1, 5)] 1 9 7 100 none (fun l => l)
        (fun _ n => (.ok n, n)) (0 : Nat) =
      (.error .lockNotAcquired, 0, [(1, 5)]) ∧
    lockRelease [(1, 8)] 1 9 = [(1, 8)] ∧
    lockRelease [(1, 9)] 1 9 = [] :=
  have h := withSlotLock_spec [(1, 5)] 1 9 7 100 none (fun l => l)
    (fun _ n => ((.ok n : Except Err Nat), n)) (0 : Nat)
  ⟨h.1 (by decide), h.2.2.2.1 [(1, 8)] (by decide), h.2.2.2.2 [(1, 9)] (by decide)⟩

/-- C9: the hydrated read either fails or returns an appointment, slot,
patient and clinician whose identifiers are mutually coherent — it never
returns an incoherent combination, the scan rejecting any mismatch with the
integrity error. -/
theorem hydrated_read_coherent (db : DB) (i : Id) (d : AppointmentDetail)
    (h : getAppointmentDetail db i = .ok d) :
    d.appointment.slotID = d.slot.id ∧
    d.appointment.patientID = d.patient.id ∧
    d.slot.practitionerID = d.clinician.id := by
  unfold getAppointmentDetail at h
  cases hfa : db.appointments.find? (fun a => a.id == i) with
  | none => simp only [hfa] at h; cases h
  | some a =>
    simp only [hfa] at h
    cases hfs : db.slots.find? (fun s => s.id == a.slotID) with
    | none => simp only [hfs] at h; cases h
    | some s =>
      simp only [hfs] at h
      cases hfp : db.patients.find? (fun p => p.id == a.patientID) with
      | none => simp only [hfp] at h; cases h
      | some p =>
        simp only [hfp] at h
        cases hfc : db.clinicians.find? (fun c => c.id == s.practitionerID) with
        | none => simp only [hfc] at h; cases h
        | some c =>
          simp only [hfc] at h
          unfold scanAppointmentDetail at h
          by_cases hg : (a.slotID != s.id || a.patientID != p.id ||
              s.practitionerID != c.id) = true
          · rw [if_pos hg] at h; cases h
          · rw [if_neg hg] at h
            cases h
            simp only [Bool.or_eq_true, bne_iff_ne, not_or, Decidable.not_not] at hg
            exact ⟨hg.1.1, hg.1.2, hg.2⟩

/-- Appointment row for the C9 witness. -/
def apC9 : Appointment :=
  { id := 1, slotID := 2, patientID := 3, status := .pending,
    createdAt := 0, updatedAt := 0, expiresAt := some 9 }

/-- Slot row for the C9 witness. -/
def slotC9 : AppointmentSlot :=
  { id := 2, practitionerID := 4, startTime := 0, endTime := 10,
    status := .slotOpen, capacity := 1, createdAt := 0, updatedAt := 0 }

/-- Patient row for the C9 witness. -/
def patC9 : Patient :=
  { id := 3, name := "bob", email := none, createdAt := 0, updatedAt := 0 }

/-- Clinician row for the C9 witness. -/
def clinC9 : Clinician :=
  { id := 4, name := "dr", specialty := none, createdAt := 0, updatedAt := 0 }

/-- Concrete state for the C9 witness. -/
def dbC9 : DB :=
  { patients := [patC9], clinicians := [clinC9], slots := [slotC9],
    appointments := [apC9], events := [], nextEventId := 1 }

/-- The detail the C9 witness read returns. -/
def detC9 : AppointmentDetail :=
  { appointment := apC9, slot := slotC9, patient := patC9, clinician := clinC9 }

/-- Witness for C9: a concrete hydrated read succeeds and its identifiers
are mutually coherent. -/
theorem hydrated_read_coherent_witness :
    detC9.appointment.slotID = detC9.slot.id ∧
    detC9.appointment.patientID = detC9.patient.id ∧
    detC9.slot.practitionerID = detC9.clinician.id :=
  hydrated_read_coherent dbC9 1 detC9 (by decide)

/-- C10: ListAppointmentsByPatient never rejects paging inputs — the
repository query always runs with the normalised values: a limit at most 0
becomes the default 20, a limit above 100 is clamped to 100, a negative
offset becomes 0, so the repository always receives 1 <= limit <= 100 and
offset >= 0. -/
theorem listAppointments_paging_normalised (db : DB) (patientID : Id)
    (limit offset : Int) :
    ∃ l' o', listAppointmentsByPatient db patientID limit offset =
        repoListAppointmentsByPatient db patientID l' o' ∧
      1 ≤ l' ∧ l' ≤ 100 ∧ 0 ≤ o' ∧
      (limit ≤ 0 → l' = 20) ∧ (100 < limit → l' = 100) ∧
      (1 ≤ limit → limit ≤ 100 → l' = limit) ∧
      (offset < 0 → o' = 0) ∧ (0 ≤ offset → o' = offset) := by
  refine ⟨(if (if limit ≤ 0 then 20 else limit) > 100 then 100
           else (if limit ≤ 0 then 20 else limit)),
          (if offset < 0 then 0 else offset), rfl, ?_, ?_, ?_, ?_, ?_, ?_, ?_, ?_⟩ <;>
    split_ifs <;> omega

/-- Witness for C10 at a concrete out-of-range paging input. -/
theorem listAppointments_paging_normalised_witness :
    ∃ l' o', listAppointmentsByPatient dbC9 3 (-3) (-7) =
        repoListAppointmentsByPatient dbC9 3 l' o' ∧
      1 ≤ l' ∧ l' ≤ 100 ∧ 0 ≤ o' ∧
      ((-3 : Int) ≤ 0 → l' = 20) ∧ (100 < (-3 : Int) → l' = 100) ∧
      (1 ≤ (-3 : Int) → (-3 : Int) ≤ 100 → l' = -3) ∧
      ((-7 : Int) < 0 → o' = 0) ∧ (0 ≤ (-7 : Int) → o' = -7) :=
  listAppointments_paging_normalised dbC9 3 (-3) (-7)
